import Mathlib

/-!
Verification of the mesh/grid editor core: a shallow embedding of the
repository's source (hooks/useHistory.ts, utils/geometry.ts, App.tsx,
MeshCanvas drag handling) together with theorems settling the frozen
claims about it.  JavaScript numbers are modelled by exact rationals
(the spec itself calls the width-sum property exact over rational
arithmetic); the Euclidean corner displacement uses real square roots.
-/

namespace Mesh

/-! ## Data model (src/types.ts) -/

/-- Canvas width constant, `SVG_WIDTH = 1000` in src/types.ts. -/
def SVG_WIDTH : ℚ := 1000

/-- Canvas height constant, `SVG_HEIGHT = 2000` in src/types.ts. -/
def SVG_HEIGHT : ℚ := 2000

/-- Margin constant, `GRID_MARGIN = 50` in src/types.ts. -/
def GRID_MARGIN : ℚ := 50

/-- A 2-D point (interface Point). -/
structure Point where
  x : ℚ
  y : ℚ
deriving DecidableEq, Inhabited

/-- A grid vertex: current position, rest position and id (interface Vertex). -/
structure Vertex where
  x : ℚ
  y : ℚ
  originalX : ℚ
  originalY : ℚ
  id : Nat
deriving DecidableEq, Inhabited

/-- A grid cell: id, the four corner vertex ids in order
[topLeft, topRight, bottomRight, bottomLeft], a nullable color and a
filled flag (interface Cell). -/
structure Cell where
  id : Nat
  v_indices : List Nat
  color : Option String
  isFilled : Bool
deriving DecidableEq, Inhabited

/-- Subdivision rules: sparse column-index→multiplier and
row-index→multiplier maps.  A JavaScript object keyed by numbers is
modelled as an association list where the most recent assignment is
consed to the front, so `List.lookup` (first match) realises
last-writer-wins. -/
structure SubdivisionRules where
  cols : List (Nat × Nat)
  rows : List (Nat × Nat)
deriving DecidableEq, Inhabited

/-- Grid configuration (interface GridConfig).  The base counts are JS
numbers that may be NaN; `none` models NaN, `some n` an integer value. -/
structure GridConfig where
  baseCols : Option Int
  baseRows : Option Int
  ruleString : String
deriving DecidableEq, Inhabited

/-- The unit of history (interface EditorState). -/
structure EditorState where
  vertices : List Vertex
  cells : List Cell
  boundaryPoints : List Point
  gridConfig : GridConfig
deriving DecidableEq, Inhabited

/-! ## History store (src/hooks/useHistory.ts)

The hook keeps `history : T[]` and `index : number` in React state; we
model the pair as an explicit record and each operation as a pure state
transformer, exactly mirroring the updater functions in the source. -/

/-- The state held by `useHistory`: the snapshot list and current index. -/
structure HistoryState (T : Type) where
  history : List T
  index : Nat
deriving DecidableEq

/-- Initial history: `useState<T[]>([initialState])`, `useState(0)`. -/
def initHistory {T : Type} (initialState : T) : HistoryState T :=
  { history := [initialState], index := 0 }

/-- `pushState` from useHistory.ts: truncate after the current index
(`prev.slice(0, index + 1)`), append the new state, shift the oldest
entry off the front when the length exceeds 50, and set the index to
`index + 1` capped at 50. -/
def pushState {T : Type} (h : HistoryState T) (newState : T) : HistoryState T :=
  let newHistory := (h.history.take (h.index + 1)) ++ [newState]
  let newHistory := if newHistory.length > 50 then newHistory.tail else newHistory
  let nextIndex := h.index + 1
  { history := newHistory, index := if nextIndex > 50 then 50 else nextIndex }

/-- `undo`: `setIndex(prev => Math.max(0, prev - 1))` (ℕ subtraction
truncates at 0 exactly as Math.max(0, ·) does). -/
def undo {T : Type} (h : HistoryState T) : HistoryState T :=
  { h with index := h.index - 1 }

/-- `redo`: `setIndex(prev => Math.min(history.length - 1, prev + 1))`. -/
def redo {T : Type} (h : HistoryState T) : HistoryState T :=
  { h with index := min (h.history.length - 1) (h.index + 1) }

/-- `const currentState = history[index]` — JS indexing yields
`undefined` out of bounds, modelled by `Option`. -/
def currentState {T : Type} (h : HistoryState T) : Option T :=
  h.history[h.index]?

/-- `canUndo: index > 0`. -/
def canUndo {T : Type} (h : HistoryState T) : Bool :=
  h.index > 0

/-- `canRedo: index < history.length - 1`. -/
def canRedo {T : Type} (h : HistoryState T) : Bool :=
  h.index < h.history.length - 1

/-! ## Rule parsing (src/utils/geometry.ts, parseSubdivisionRules) -/

/-- Split a character list at commas, as `String.split(',')` does
(empty segments are kept; the caller filters them out). -/
def splitCommaAux : List Char → List Char → List (List Char)
  | [], acc => [acc.reverse]
  | c :: rest, acc =>
    if c = ',' then acc.reverse :: splitCommaAux rest []
    else splitCommaAux rest (c :: acc)

/-- `rulesString.split(',')` over the underlying characters. -/
def splitComma (s : List Char) : List (List Char) :=
  splitCommaAux s []

/-- JS `\s` character class (ASCII part: space, tab, CR, LF), used for
both `trim()` and the `\s*` gaps in the token regex. -/
def isWs (c : Char) : Bool :=
  c.isWhitespace

/-- `s.trim()`: strip whitespace from both ends. -/
def trimChars (s : List Char) : List Char :=
  ((s.dropWhile isWs).reverse.dropWhile isWs).reverse

/-- Digit run to a number, the effect of `parseInt` on the `\d+`
capture groups of the token regex (such a capture is never NaN and
never negative). -/
def digitsToNat (l : List Char) : Nat :=
  l.foldl (fun n c => 10 * n + (c.toNat - '0'.toNat)) 0

/-- The token regex `^([CR])\s*(\d+)\s*:\s*(\d+)$` applied to one
trimmed, upper-cased part: returns the letter and the two integer
captures, or `none` when the part does not match. -/
def matchToken (l : List Char) : Option (Char × Nat × Nat) :=
  match l with
  | [] => none
  | t :: rest =>
    if t = 'C' ∨ t = 'R' then
      let rest1 := rest.dropWhile isWs
      let digs1 := rest1.takeWhile Char.isDigit
      let rest2 := rest1.dropWhile Char.isDigit
      if digs1 = [] then none
      else
        match rest2.dropWhile isWs with
        | ':' :: rest4 =>
          let rest5 := rest4.dropWhile isWs
          let digs2 := rest5.takeWhile Char.isDigit
          let rest6 := rest5.dropWhile Char.isDigit
          if digs2 = [] ∨ rest6 ≠ [] then none
          else some (t, digitsToNat digs1, digitsToNat digs2)
        | _ => none
    else none

/-- The body of the `parts.forEach` callback: try the regex, drop the
token on no match, non-positive multiplier (`mult <= 0`; the captures
cannot be NaN or negative) or out-of-range index, otherwise assign into
the matching axis map. -/
def applyToken (baseCols baseRows : Int) (rules : SubdivisionRules)
    (part : List Char) : SubdivisionRules :=
  match matchToken part with
  | none => rules
  | some (t, index, mult) =>
    if mult = 0 then rules
    else if t = 'C' ∧ (index : Int) < baseCols then
      { rules with cols := (index, mult) :: rules.cols }
    else if t = 'R' ∧ (index : Int) < baseRows then
      { rules with rows := (index, mult) :: rules.rows }
    else rules

/-- `parseSubdivisionRules` from geometry.ts: falsy (empty) input gives
empty maps; otherwise split on commas, trim and upper-case each part,
drop empty parts, and fold `applyToken` over the remainder.  The
`index >= 0` half of the source's range check is automatic for ℕ. -/
def parseSubdivisionRules (rulesString : String) (baseCols baseRows : Int) :
    SubdivisionRules :=
  if rulesString = "" then { cols := [], rows := [] }
  else
    let parts := ((splitComma rulesString.data).map
      (fun s => (trimChars s).map Char.toUpper)).filter (fun s => s.length > 0)
    parts.foldl (applyToken baseCols baseRows) { cols := [], rows := [] }

/-! ## Grid generation (src/utils/geometry.ts, generateGrid) -/

/-- The `Math.max(1, isNaN(x) ? 1 : x)` safeguard at the top of
`generateGrid` (and in `handleRegenerateGrid`). -/
def sanitizeCount : Option Int → Nat
  | none => 1
  | some n => max 1 n.toNat

/-- Drawable width `SVG_WIDTH - 2 * GRID_MARGIN`. -/
def gridAreaX : ℚ := SVG_WIDTH - 2 * GRID_MARGIN

/-- Drawable height `SVG_HEIGHT - 2 * GRID_MARGIN`. -/
def gridAreaY : ℚ := SVG_HEIGHT - 2 * GRID_MARGIN

/-- `rules.cols[c] || 1`: a missing entry — and, `||` being a falsy
test, an explicit 0 — both give multiplier 1. -/
def lookupOr1 (l : List (Nat × Nat)) (k : Nat) : Nat :=
  match List.lookup k l with
  | some m => if m = 0 then 1 else m
  | none => 1

/-- The strips contributed by logical column `c`: `multiplier` copies
of `(gridArea / safeCols) / multiplier` (inner loop of the column-width
pass). -/
def colStrips (colRules : List (Nat × Nat)) (gridArea : ℚ) (safeCount : Nat)
    (c : Nat) : List ℚ :=
  let multiplier := lookupOr1 colRules c
  let baseStep := gridArea / (safeCount : ℚ)
  List.replicate multiplier (baseStep / (multiplier : ℚ))

/-- The full `colWidths` (resp. `rowHeights`) array built by the
column-width (row-height) loop. -/
def stripWidths (colRules : List (Nat × Nat)) (gridArea : ℚ)
    (safeCount : Nat) : List ℚ :=
  (List.range safeCount).flatMap (colStrips colRules gridArea safeCount)

/-- `totalXPoints` (resp. `totalYPoints`): the accumulated multipliers
plus the fencepost 1. -/
def totalPoints (colRules : List (Nat × Nat)) (safeCount : Nat) : Nat :=
  ((List.range safeCount).map (lookupOr1 colRules)).sum + 1

/-- Coordinate of fencepost `i` along one axis: the vertex loop keeps a
running position starting at `GRID_MARGIN` and adds `widths[i-1]` when
`i > 0`, i.e. the margin plus the first `i` strip widths. -/
def coordAt (widths : List ℚ) (i : Nat) : ℚ :=
  GRID_MARGIN + ((widths.take i).sum)

/-- One row of the vertex generation loop; `vertexId` increments in
row-major order so the vertex at `(r, c)` has id `r * totalX + c`, and
each vertex's rest position equals its initial position. -/
def genVertexRow (widths : List ℚ) (totalX : Nat) (y : ℚ) (r : Nat) :
    List Vertex :=
  (List.range totalX).map (fun c =>
    let x := coordAt widths c
    { x := x, y := y, originalX := x, originalY := y, id := r * totalX + c })

/-- The full vertex list of `generateGrid` (both nested loops). -/
def genVertices (widths heights : List ℚ) (totalX totalY : Nat) :
    List Vertex :=
  (List.range totalY).flatMap (fun r =>
    genVertexRow widths totalX (coordAt heights r) r)

/-- The cell emission loops: for each `(r, c)` in
`(totalY - 1) × (totalX - 1)`, corner ids by the stride arithmetic
`r * totalXPoints + c`, emitted unfilled with a null color. -/
def genCells (totalX totalY : Nat) : List Cell :=
  (List.range (totalY - 1)).flatMap (fun r =>
    (List.range (totalX - 1)).map (fun c =>
      { id := r * (totalX - 1) + c
        v_indices := [r * totalX + c, r * totalX + c + 1,
                      (r + 1) * totalX + c + 1, (r + 1) * totalX + c]
        color := none
        isFilled := false }))

/-- The record returned by `generateGrid`. -/
structure Grid where
  vertices : List Vertex
  cells : List Cell
deriving DecidableEq, Inhabited

/-- `generateGrid(baseCols, baseRows, rules)` from geometry.ts. -/
def generateGrid (baseCols baseRows : Option Int) (rules : SubdivisionRules) :
    Grid :=
  let safeCols := sanitizeCount baseCols
  let safeRows := sanitizeCount baseRows
  let colWidths := stripWidths rules.cols gridAreaX safeCols
  let rowHeights := stripWidths rules.rows gridAreaY safeRows
  let totalXPoints := totalPoints rules.cols safeCols
  let totalYPoints := totalPoints rules.rows safeRows
  { vertices := genVertices colWidths rowHeights totalXPoints totalYPoints
    cells := genCells totalXPoints totalYPoints }

/-! ## Point in polygon, cell center (src/utils/geometry.ts) -/

/-- `isPointInPolygon` from geometry.ts: the ray-casting loop with
`j` trailing `i` around the closed edge loop.  In the source the `&&`
short-circuit guarantees the division only runs when `yj ≠ yi`;
rational division is total, and when the first conjunct is false the
conjunction is false either way, so the value agrees. -/
def isPointInPolygon (point : Point) (vs : List Point) : Bool :=
  if vs.length < 3 then false
  else
    (List.range vs.length).foldl
      (fun inside i =>
        let j := if i = 0 then vs.length - 1 else i - 1
        let pI := vs.getD i default
        let pJ := vs.getD j default
        let intersect :=
          (decide (pI.y > point.y) != decide (pJ.y > point.y)) &&
          decide (point.x <
            (pJ.x - pI.x) * (point.y - pI.y) / (pJ.y - pI.y) + pI.x)
        if intersect then !inside else inside)
      false

/-- `getCellCenter`: mean of the four corner vertices' current
positions.  JS indexing out of bounds would give NaN coordinates; the
model uses a default vertex, reached only for malformed cells. -/
def getCellCenter (cell : Cell) (vertices : List Vertex) : Point :=
  let v0 := vertices.getD (cell.v_indices.getD 0 0) default
  let v1 := vertices.getD (cell.v_indices.getD 1 0) default
  let v2 := vertices.getD (cell.v_indices.getD 2 0) default
  let v3 := vertices.getD (cell.v_indices.getD 3 0) default
  { x := (v0.x + v1.x + v2.x + v3.x) / 4
    y := (v0.y + v1.y + v2.y + v3.y) / 4 }

/-! ## Displacement color (src/utils/geometry.ts, getDisplacementColor) -/

/-- Euclidean distance of one referenced vertex from its rest position:
`Math.sqrt(dx * dx + dy * dy)`. -/
noncomputable def cornerDisplacement (vertices : List Vertex) (vid : Nat) : ℝ :=
  let v := vertices.getD vid default
  Real.sqrt (((v.x : ℝ) - (v.originalX : ℝ)) * ((v.x : ℝ) - (v.originalX : ℝ)) +
    ((v.y : ℝ) - (v.originalY : ℝ)) * ((v.y : ℝ) - (v.originalY : ℝ)))

/-- `avgDisp`: the summed corner displacements divided by 4. -/
noncomputable def avgDisplacement (cell : Cell) (vertices : List Vertex) : ℝ :=
  (cell.v_indices.foldl (fun acc vid => acc + cornerDisplacement vertices vid) 0) / 4

/-- `const intensity = Math.min(255, Math.floor(avgDisp * scale * 200))`. -/
noncomputable def displacementIntensity (avgDisp scale : ℝ) : ℤ :=
  min 255 ⌊avgDisp * scale * 200⌋

/-- JS `Number.prototype.toString(16)` on an integer: lowercase hex
digits, a leading minus sign for negative values. -/
def intToHexJS (i : ℤ) : String :=
  if i < 0 then "-" ++ String.mk (Nat.toDigits 16 i.natAbs)
  else String.mk (Nat.toDigits 16 i.toNat)

/-- `padStart(2, '0')`. -/
def padStart2 (s : String) : String :=
  if s.length ≥ 2 then s else if s.length = 1 then "0" ++ s else "00"

/-- `getDisplacementColor`: hex-format the intensity and triple it into
a neutral `#rrggbb` grayscale string. -/
noncomputable def getDisplacementColor (cell : Cell) (vertices : List Vertex)
    (scale : ℝ) : String :=
  let hex := padStart2 (intToHexJS
    (displacementIntensity (avgDisplacement cell vertices) scale))
  "#" ++ hex ++ hex ++ hex

/-! ## Cell painting (src/App.tsx, handleCellClick)

The handler either returns without touching anything (unknown id, or
the cell's current center falls outside an active mask) or calls
`pushState` with exactly one new state; `none` models the
reject-without-push path and `some s` models `pushState(s)`. -/

/-- `handleCellClick` from App.tsx. -/
def handleCellClick (state : EditorState) (localVertices : List Vertex)
    (localBoundary : List Point) (activeColor : String) (id : Nat) :
    Option EditorState :=
  match state.cells.findIdx? (fun c => c.id == id) with
  | none => none
  | some cellIndex =>
    let cell := state.cells.getD cellIndex default
    if state.boundaryPoints.length ≥ 3 ∧
        isPointInPolygon (getCellCenter cell localVertices)
          state.boundaryPoints = false then
      none
    else
      let newCell :=
        if cell.isFilled ∧ cell.color = some activeColor then
          { cell with isFilled := false, color := none }
        else
          { cell with isFilled := true, color := some activeColor }
      some { state with
        vertices := localVertices
        boundaryPoints := localBoundary
        cells := state.cells.set cellIndex newCell }

/-- The reachable-state invariant checked for claim C10: every
unfilled cell has a null color. -/
def unfilledNullInvariant (cells : List Cell) : Bool :=
  cells.all (fun c => c.isFilled || (c.color == none))

/-! ## Drag controller (src/components/MeshCanvas.tsx, handlePointerMove) -/

/-- The drag axis constraint values `'x'` / `'y'`. -/
inductive Axis where
  | x
  | y
deriving DecidableEq, Inhabited

/-- The `dragState` record captured on pointer-down (target kind and id
are irrelevant to the movement arithmetic and omitted). -/
structure DragState where
  startX : ℚ
  startY : ℚ
  initialItemX : ℚ
  initialItemY : ℚ
  constraint : Option Axis
deriving DecidableEq, Inhabited

/-- A pointer-move event: client position and whether the axis-lock
modifier (Alt) is held. -/
structure PointerEvent where
  clientX : ℚ
  clientY : ℚ
  altKey : Bool
deriving DecidableEq, Inhabited

/-- `Math.min` over rationals (defined explicitly so that concrete
evaluations reduce in the kernel). -/
def qmin (a b : ℚ) : ℚ := if a ≤ b then a else b

/-- `Math.max` over rationals. -/
def qmax (a b : ℚ) : ℚ := if a ≤ b then b else a

/-- `Math.abs` over rationals. -/
def qabs (a : ℚ) : ℚ := if a < 0 then -a else a

/-- `handlePointerMove`: cumulative client delta from the drag start;
when Alt is held, no constraint is set yet and either |delta| exceeds
5px, lock to the axis of larger magnitude; zero the cross-axis SVG
delta under a lock; clamp the reported position to the canvas.
`scaleX`/`scaleY` are the `SVG_SIZE / rect.size` factors.  Returns the
updated drag state and the `(newX, newY)` reported to the move
callback. -/
def handlePointerMove (e : PointerEvent) (ds : DragState)
    (scaleX scaleY : ℚ) : DragState × ℚ × ℚ :=
  let dx := e.clientX - ds.startX
  let dy := e.clientY - ds.startY
  let constraint :=
    if e.altKey ∧ ds.constraint = none ∧ (qabs dx > 5 ∨ qabs dy > 5) then
      some (if qabs dx > qabs dy then Axis.x else Axis.y)
    else ds.constraint
  let svgDx := dx * scaleX
  let svgDy := dy * scaleY
  let svgDx := if constraint = some Axis.y then 0 else svgDx
  let svgDy := if constraint = some Axis.x then 0 else svgDy
  let newX := qmax 0 (qmin SVG_WIDTH (ds.initialItemX + svgDx))
  let newY := qmax 0 (qmin SVG_HEIGHT (ds.initialItemY + svgDy))
  ({ ds with constraint := constraint }, newX, newY)

/-! ## Concrete inputs used by witnesses and counterexamples -/

/-- A lone cell whose four corners are vertices 0–3 of the unit square
below; its current center is (5, 5). -/
def c6Cell : Cell :=
  { id := 0, v_indices := [0, 1, 2, 3], color := none, isFilled := false }

/-- Undeformed corner vertices of a 10×10 square at the origin. -/
def c6Vertices : List Vertex :=
  [⟨0, 0, 0, 0, 0⟩, ⟨10, 0, 10, 0, 1⟩, ⟨10, 10, 10, 10, 2⟩, ⟨0, 10, 0, 10, 3⟩]

/-- A four-point mask square over x ∈ [20, 30], entirely to the right
of the cell, so the cell center (5, 5) lies outside it. -/
def c6Mask : List Point :=
  [⟨20, 0⟩, ⟨30, 0⟩, ⟨30, 10⟩, ⟨20, 10⟩]

/-- Editor state for the mask-rejection scenario. -/
def c6State : EditorState :=
  { vertices := c6Vertices, cells := [c6Cell], boundaryPoints := c6Mask
    gridConfig := default }

/-- Minimal editor state for the paint-toggle scenario: one unfilled,
colorless cell and no mask. -/
def c10State : EditorState :=
  { vertices := [⟨0, 0, 0, 0, 0⟩]
    cells := [{ id := 0, v_indices := [0, 0, 0, 0], color := none, isFilled := false }]
    boundaryPoints := []
    gridConfig := default }

/-- The state `handleCellClick` pushes for `c10State` when cell 0 is
clicked with active color `#888888`: the cell becomes filled with that
color. -/
def c10Next : EditorState :=
  { vertices := [⟨0, 0, 0, 0, 0⟩]
    cells := [{ id := 0, v_indices := [0, 0, 0, 0], color := some "#888888", isFilled := true }]
    boundaryPoints := []
    gridConfig := default }

/-- A cell referencing vertices 0–3, used for displacement scenarios. -/
def c8CellW : Cell :=
  { id := 0, v_indices := [0, 1, 2, 3], color := none, isFilled := false }

/-- Four vertices sitting exactly at their rest positions. -/
def c8VertsRest : List Vertex :=
  [⟨0, 0, 0, 0, 0⟩, ⟨0, 0, 0, 0, 1⟩, ⟨0, 0, 0, 0, 2⟩, ⟨0, 0, 0, 0, 3⟩]

/-- Four vertices each displaced by (0, 1) from rest, giving average
corner displacement exactly 1. -/
def c8VertsMoved : List Vertex :=
  [⟨0, 1, 0, 0, 0⟩, ⟨0, 1, 0, 0, 1⟩, ⟨0, 1, 0, 0, 2⟩, ⟨0, 1, 0, 0, 3⟩]

/-- Bool check that every cell of a grid only references existing
vertex indices (claim C5). -/
def cellIndicesValid (g : Grid) : Bool :=
  g.cells.all (fun cell =>
    cell.v_indices.all (fun i => decide (i < g.vertices.length)))

/-! ## Helper lemmas -/

/-- Sum of a flatMap is the sum of the per-element sums. -/
theorem sum_flatMap_eq {α : Type} (l : List α) (f : α → List ℚ) :
    (l.flatMap f).sum = (l.map (fun a => (f a).sum)).sum := by
  induction l with
  | nil => rfl
  | cons x xs ih => simp [List.flatMap_cons, List.sum_append, ih]

/-- The `|| 1` default makes every multiplier positive. -/
theorem one_le_lookupOr1 (l : List (Nat × Nat)) (k : Nat) :
    1 ≤ lookupOr1 l k := by
  unfold lookupOr1
  cases List.lookup k l with
  | none => simp
  | some m => cases m <;> simp

/-- Sanitized base counts are at least 1. -/
theorem one_le_sanitizeCount (x : Option Int) : 1 ≤ sanitizeCount x := by
  cases x with
  | none => simp [sanitizeCount]
  | some n => simp [sanitizeCount]

/-- Strip count per axis is the multiplier sum, i.e. the fencepost
total minus one. -/
theorem stripWidths_length (rules : List (Nat × Nat)) (area : ℚ) (n : Nat) :
    (stripWidths rules area n).length + 1 = totalPoints rules n := by
  unfold stripWidths totalPoints
  rw [List.length_flatMap]
  have h : List.map (List.length ∘ colStrips rules area n) (List.range n)
      = List.map (lookupOr1 rules) (List.range n) :=
    List.map_congr_left (fun c _ => by simp [colStrips, Function.comp])
  rw [h]

/-- The strips of one logical division sum to that division's
undivided width `area / n`. -/
theorem colStrips_sum (rules : List (Nat × Nat)) (area : ℚ) (n c : Nat) :
    (colStrips rules area n c).sum = area / (n : ℚ) := by
  unfold colStrips
  rw [List.sum_replicate, nsmul_eq_mul]
  have hpos : (0 : ℚ) < (lookupOr1 rules c : ℚ) := by
    exact_mod_cast Nat.lt_of_lt_of_le Nat.zero_lt_one (one_le_lookupOr1 rules c)
  rw [mul_comm, div_mul_cancel₀ _ (ne_of_gt hpos)]

/-- The strip widths along one axis sum to the full drawable span. -/
theorem stripWidths_sum (rules : List (Nat × Nat)) (area : ℚ) (n : Nat)
    (hn : 1 ≤ n) : (stripWidths rules area n).sum = area := by
  unfold stripWidths
  rw [sum_flatMap_eq]
  rw [List.map_congr_left (fun c _ => colStrips_sum rules area n c)]
  rw [List.map_const', List.sum_replicate, List.length_range, nsmul_eq_mul]
  have hpos : (0 : ℚ) < (n : ℚ) := by exact_mod_cast Nat.lt_of_lt_of_le Nat.zero_lt_one hn
  rw [mul_comm, div_mul_cancel₀ _ (ne_of_gt hpos)]

/-- The generated vertex list has `totalY * totalX` entries. -/
theorem genVertices_length (w h : List ℚ) (tX tY : Nat) :
    (genVertices w h tX tY).length = tY * tX := by
  unfold genVertices genVertexRow
  rw [List.length_flatMap]
  have hcongr : List.map
      (List.length ∘ fun r => List.map (fun c =>
        Vertex.mk (coordAt w c) (coordAt h r) (coordAt w c) (coordAt h r)
          (r * tX + c)) (List.range tX))
      (List.range tY) = List.map (fun _ => tX) (List.range tY) :=
    List.map_congr_left (fun r _ => by simp [Function.comp])
  rw [hcongr, List.map_const', List.sum_replicate, List.length_range,
    smul_eq_mul]

/-- The generated cell list has `(totalY - 1) * (totalX - 1)` entries. -/
theorem genCells_length (tX tY : Nat) :
    (genCells tX tY).length = (tY - 1) * (tX - 1) := by
  unfold genCells
  rw [List.length_flatMap]
  have hcongr : List.map
      (List.length ∘ fun r => List.map (fun c =>
        Cell.mk (r * (tX - 1) + c)
          [r * tX + c, r * tX + c + 1, (r + 1) * tX + c + 1, (r + 1) * tX + c]
          none false) (List.range (tX - 1)))
      (List.range (tY - 1)) = List.map (fun _ => tX - 1) (List.range (tY - 1)) :=
    List.map_congr_left (fun r _ => by simp [Function.comp])
  rw [hcongr, List.map_const', List.sum_replicate, List.length_range,
    smul_eq_mul]

/-- Every corner index of every generated cell is below the vertex
count `tY * tX`. -/
theorem genCells_indices_lt (tX tY : Nat) :
    ∀ cell ∈ genCells tX tY, ∀ i ∈ cell.v_indices, i < tY * tX := by
  intro cell hcell i hi
  rw [genCells, List.mem_flatMap] at hcell
  obtain ⟨r, hr, hcell⟩ := hcell
  rw [List.mem_map] at hcell
  obtain ⟨c, hc, rfl⟩ := hcell
  rw [List.mem_range] at hr hc
  have hcx : c + 1 < tX := by omega
  have hry : r + 2 ≤ tY := by omega
  have hmax : (r + 1) * tX + c + 1 < tY * tX := by
    have h1 : (r + 1) * tX + (c + 1) < (r + 1) * tX + tX :=
      Nat.add_lt_add_left hcx _
    have h2 : (r + 1) * tX + tX = (r + 2) * tX := by ring
    have h3 : (r + 2) * tX ≤ tY * tX := Nat.mul_le_mul_right _ hry
    omega
  have hr1 : r * tX ≤ (r + 1) * tX := Nat.mul_le_mul_right _ (Nat.le_succ r)
  simp only [List.mem_cons, List.not_mem_nil, or_false] at hi
  rcases hi with rfl | rfl | rfl | rfl
  · omega
  · omega
  · omega
  · omega

/-! ## Claims -/

set_option maxRecDepth 100000 in
/-- C1 (status: code bug in the source).  The claim asserts the index
is always a valid position and `current()` never reads out of bounds;
the source caps the index at 50 while capacity eviction leaves at most
50 snapshots (valid indices 0–49).  After 50 consecutive pushes from
the initial single-snapshot history the index equals the length, so
`history[index]` is undefined; after 52 pushes the three oldest
snapshots (the initial one and the first two pushed) are gone, not
two.  This theorem evaluates the embedded `pushState` at that failing
input. -/
theorem C1_push_sequence_escapes_bounds :
    (((List.range 50).foldl (fun h i => pushState h (i + 1))
        (initHistory 0)).history.length = 50) ∧
    (((List.range 50).foldl (fun h i => pushState h (i + 1))
        (initHistory 0)).index = 50) ∧
    (currentState ((List.range 50).foldl (fun h i => pushState h (i + 1))
        (initHistory 0)) = none) ∧
    (((List.range 52).foldl (fun h i => pushState h (i + 1))
        (initHistory 0)).history.head? = some 3) ∧
    (((List.range 52).foldl (fun h i => pushState h (i + 1))
        (initHistory 0)).history.length = 50) := by
  refine ⟨?_, ?_, ?_, ?_, ?_⟩ <;> with_unfolding_all rfl

set_option maxRecDepth 20000 in
/-- C2: a push after an undo truncates the redo branch.  From [A],
push B, push C, undo: current is B and canRedo holds; push D then
yields history [A, B, D] with current D, and redo is a no-op, so C is
gone for good. -/
theorem C2_push_discards_redo_branch {T : Type} (A B C D : T) :
    currentState (undo (pushState (pushState (initHistory A) B) C)) = some B ∧
    canRedo (undo (pushState (pushState (initHistory A) B) C)) = true ∧
    (pushState (undo (pushState (pushState (initHistory A) B) C)) D).history
      = [A, B, D] ∧
    currentState (pushState (undo (pushState (pushState (initHistory A) B) C)) D)
      = some D ∧
    redo (pushState (undo (pushState (pushState (initHistory A) B) C)) D)
      = pushState (undo (pushState (pushState (initHistory A) B) C)) D := by
  refine ⟨?_, ?_, ?_, ?_, ?_⟩ <;> with_unfolding_all rfl

/-- C7: the axis lock is decided at most once per drag — once the
constraint is set, a pointer move never changes it — and in the
concrete trace from (100,100) with Alt held, the move to (100,150)
locks the Y axis (the 5px threshold is exceeded and |dy| is larger)
and reports (100,150), and the further move to (130,155) keeps the
lock and reports x = 100 regardless of its X delta. -/
theorem C7_axis_lock_decided_once (e : PointerEvent) (ds : DragState)
    (sx sy : ℚ) (a : Axis) :
    (handlePointerMove e { ds with constraint := some a } sx sy).1.constraint
      = some a ∧
    (handlePointerMove ⟨100, 150, true⟩ ⟨100, 100, 100, 100, none⟩ 1 1).1.constraint
      = some Axis.y ∧
    (handlePointerMove ⟨100, 150, true⟩ ⟨100, 100, 100, 100, none⟩ 1 1).2
      = (100, 150) ∧
    (handlePointerMove ⟨130, 155, true⟩
      (handlePointerMove ⟨100, 150, true⟩ ⟨100, 100, 100, 100, none⟩ 1 1).1 1 1).2
      = (100, 155) := by
  refine ⟨by simp [handlePointerMove], ?_, ?_, ?_⟩ <;> with_unfolding_all rfl

/-- C9: `isPointInPolygon` returns false for every point whenever the
polygon has fewer than 3 points (the lists of length 0, 1 and 2 are
exactly those), returns true at (5,5) and false at (15,5) on the
square [(0,0),(10,0),(10,10),(0,10)]. -/
theorem C9_point_in_polygon_cases (p a b : Point) :
    isPointInPolygon p [] = false ∧
    isPointInPolygon p [a] = false ∧
    isPointInPolygon p [a, b] = false ∧
    isPointInPolygon ⟨5, 5⟩ [⟨0, 0⟩, ⟨10, 0⟩, ⟨10, 10⟩, ⟨0, 10⟩] = true ∧
    isPointInPolygon ⟨15, 5⟩ [⟨0, 0⟩, ⟨10, 0⟩, ⟨10, 10⟩, ⟨0, 10⟩] = false := by
  refine ⟨rfl, rfl, rfl, by with_unfolding_all rfl, by with_unfolding_all rfl⟩

/-- C3: for every pair of base counts (NaN and non-positive values
coerced to 1 by sanitization) and every rules mapping, `generateGrid`
returns exactly `totalXPoints * totalYPoints` vertices and
`(totalXPoints - 1) * (totalYPoints - 1)` cells, where `totalXPoints`
is the sum over base columns of the (default 1) multiplier plus the
fencepost, and analogously for rows; the function is total. -/
theorem C3_generateGrid_counts (baseCols baseRows : Option Int)
    (rules : SubdivisionRules) :
    (generateGrid baseCols baseRows rules).vertices.length =
      totalPoints rules.cols (sanitizeCount baseCols) *
      totalPoints rules.rows (sanitizeCount baseRows) ∧
    (generateGrid baseCols baseRows rules).cells.length =
      (totalPoints rules.cols (sanitizeCount baseCols) - 1) *
      (totalPoints rules.rows (sanitizeCount baseRows) - 1) ∧
    sanitizeCount none = 1 ∧
    (∀ n : Int, sanitizeCount (some n) = if n ≤ 0 then 1 else n.toNat) := by
  refine ⟨?_, ?_, rfl, ?_⟩
  · simp only [generateGrid]
    rw [genVertices_length, Nat.mul_comm]
  · simp only [generateGrid]
    rw [genCells_length, Nat.mul_comm]
  · intro n
    simp only [sanitizeCount]
    split <;> omega

/-- C5: every cell's four vertex-id references are valid indices into
the returned vertex list, the strip widths along each axis sum exactly
(over ℚ) to the drawable span `SVG size - 2 * margin`, and the
multiplier copies of `(span / baseCount) / multiplier` for one logical
division sum exactly to that division's undivided width. -/
theorem C5_cell_refs_valid_and_span_preserved (baseCols baseRows : Option Int)
    (rules : SubdivisionRules) :
    cellIndicesValid (generateGrid baseCols baseRows rules) = true ∧
    (stripWidths rules.cols gridAreaX (sanitizeCount baseCols)).sum
      = SVG_WIDTH - 2 * GRID_MARGIN ∧
    (stripWidths rules.rows gridAreaY (sanitizeCount baseRows)).sum
      = SVG_HEIGHT - 2 * GRID_MARGIN ∧
    (∀ c : Nat, (colStrips rules.cols gridAreaX (sanitizeCount baseCols) c).sum
      = gridAreaX / ((sanitizeCount baseCols : ℚ))) ∧
    (∀ r : Nat, (colStrips rules.rows gridAreaY (sanitizeCount baseRows) r).sum
      = gridAreaY / ((sanitizeCount baseRows : ℚ))) := by
  refine ⟨?_, stripWidths_sum _ _ _ (one_le_sanitizeCount _),
    stripWidths_sum _ _ _ (one_le_sanitizeCount _),
    fun c => colStrips_sum _ _ _ _, fun r => colStrips_sum _ _ _ _⟩
  simp only [cellIndicesValid, generateGrid, List.all_eq_true]
  intro cell hcell i hi
  simp only [decide_eq_true_eq]
  rw [genVertices_length]
  exact genCells_indices_lt _ _ cell hcell i hi

/-- C4: rule parsing silently drops a token that fails the pattern,
has a non-positive multiplier, or an out-of-range index; the last
occurrence of a repeated index wins; empty input yields empty maps; and
the three concrete examples from the spec parse as stated. -/
theorem C4_parse_rules_drops_and_examples (bc br : Int) :
    parseSubdivisionRules "" bc br = { cols := [], rows := [] } ∧
    (∀ (rules : SubdivisionRules) (part : List Char),
      matchToken part = none → applyToken bc br rules part = rules) ∧
    (∀ (rules : SubdivisionRules) (part : List Char) (t : Char) (i : Nat),
      matchToken part = some (t, i, 0) → applyToken bc br rules part = rules) ∧
    (∀ (rules : SubdivisionRules) (part : List Char) (i m : Nat),
      matchToken part = some ('C', i, m) → bc ≤ (i : Int) →
      applyToken bc br rules part = rules) ∧
    (∀ (rules : SubdivisionRules) (part : List Char) (i m : Nat),
      matchToken part = some ('R', i, m) → br ≤ (i : Int) →
      applyToken bc br rules part = rules) ∧
    parseSubdivisionRules "C1:4,R3:2" 10 14 = { cols := [(1, 4)], rows := [(3, 2)] } ∧
    parseSubdivisionRules "X9:9" 10 14 = { cols := [], rows := [] } ∧
    parseSubdivisionRules "C99:4" 10 14 = { cols := [], rows := [] } ∧
    List.lookup 1 (parseSubdivisionRules "C1:4,C1:7" 10 14).cols = some 7 := by
  refine ⟨rfl, ?_, ?_, ?_, ?_, ?_, ?_, ?_, ?_⟩
  · intro rules part hm
    simp [applyToken, hm]
  · intro rules part t i hm
    simp [applyToken, hm]
  · intro rules part i m hm hle
    simp [applyToken, hm, not_lt.mpr hle]
  · intro rules part i m hm hle
    simp [applyToken, hm, not_lt.mpr hle]
  · with_unfolding_all rfl
  · with_unfolding_all rfl
  · with_unfolding_all rfl
  · with_unfolding_all rfl

/-- Witness for C4: the drop clauses applied at concrete inputs — the
unmatchable token `X9:9` and the out-of-range token `C99:4` both leave
the rule maps untouched. -/
theorem C4_witness :
    applyToken 10 14 { cols := [], rows := [] } ("X9:9".data)
      = { cols := [], rows := [] } ∧
    applyToken 10 14 { cols := [], rows := [] } ("C99:4".data)
      = { cols := [], rows := [] } := by
  have h := C4_parse_rules_drops_and_examples 10 14
  exact ⟨h.2.1 _ _ (by with_unfolding_all rfl),
    h.2.2.2.1 _ _ 99 4 (by with_unfolding_all rfl) (by norm_num)⟩

/-- C6: with an active mask of at least three boundary points, clicking
a cell whose current center (mean of its corners' current positions)
lies outside the mask polygon is rejected: `handleCellClick` returns
without pushing any snapshot and without touching any cell, so the
editor state is unchanged. -/
theorem C6_mask_rejection_changes_nothing (state : EditorState)
    (localVertices : List Vertex) (localBoundary : List Point)
    (activeColor : String) (cid cellIndex : Nat)
    (hfind : state.cells.findIdx? (fun c => c.id == cid) = some cellIndex)
    (hmask : state.boundaryPoints.length ≥ 3)
    (hout : isPointInPolygon
      (getCellCenter (state.cells.getD cellIndex default) localVertices)
      state.boundaryPoints = false) :
    handleCellClick state localVertices localBoundary activeColor cid = none := by
  simp only [handleCellClick, hfind]
  rw [if_pos ⟨hmask, hout⟩]

/-- Witness for C6: a concrete one-cell state whose center (5,5) falls
outside the four-point mask square over x ∈ [20,30]; the click is
rejected. -/
theorem C6_witness :
    handleCellClick c6State c6Vertices c6Mask "#888888" 0 = none :=
  C6_mask_rejection_changes_nothing c6State c6Vertices c6Mask "#888888" 0 0
    (by with_unfolding_all rfl) (by norm_num [c6State, c6Mask])
    (by with_unfolding_all rfl)

/-- C10: every editor state reachable through grid generation and the
cell-paint toggle keeps the invariant that an unfilled cell has a null
color: `generateGrid` creates all cells unfilled with null color, and
`handleCellClick` clears the color in the same update that clears
`isFilled`, so the invariant is preserved by every pushed state. -/
theorem C10_unfilled_cells_are_colorless :
    (∀ (baseCols baseRows : Option Int) (rules : SubdivisionRules),
      unfilledNullInvariant (generateGrid baseCols baseRows rules).cells = true) ∧
    (∀ (state : EditorState) (localVertices : List Vertex)
        (localBoundary : List Point) (activeColor : String) (cid : Nat)
        (next : EditorState),
      unfilledNullInvariant state.cells = true →
      handleCellClick state localVertices localBoundary activeColor cid
        = some next →
      unfilledNullInvariant next.cells = true) := by
  constructor
  · intro baseCols baseRows rules
    simp only [unfilledNullInvariant, generateGrid, List.all_eq_true]
    intro cell hcell
    rw [genCells, List.mem_flatMap] at hcell
    obtain ⟨r, _, hcell⟩ := hcell
    rw [List.mem_map] at hcell
    obtain ⟨c, _, rfl⟩ := hcell
    rfl
  · intro state localVertices localBoundary activeColor cid next hinv hpush
    rw [unfilledNullInvariant, List.all_eq_true] at hinv ⊢
    simp only [handleCellClick] at hpush
    split at hpush
    · exact absurd hpush (by simp)
    · split at hpush
      · exact absurd hpush (by simp)
      · have hnext := Option.some.inj hpush
        intro cell hcell
        rw [← hnext] at hcell
        simp only at hcell
        rcases List.mem_or_eq_of_mem_set hcell with hmem | rfl
        · exact hinv cell hmem
        · split
          · rfl
          · rfl

/-- Witness for C10: clicking the single unfilled cell of a minimal
state pushes a state whose cells still satisfy the invariant. -/
theorem C10_witness :
    handleCellClick c10State [⟨0, 0, 0, 0, 0⟩] [] "#888888" 0 = some c10Next ∧
    unfilledNullInvariant c10Next.cells = true := by
  have hpush : handleCellClick c10State [⟨0, 0, 0, 0, 0⟩] [] "#888888" 0
      = some c10Next := by with_unfolding_all rfl
  exact ⟨hpush, C10_unfilled_cells_are_colorless.2 c10State [⟨0, 0, 0, 0, 0⟩] []
    "#888888" 0 c10Next (by with_unfolding_all rfl) hpush⟩

/-- Accumulating non-negative corner displacements keeps the total
non-negative. -/
theorem foldl_cornerDisplacement_nonneg (vertices : List Vertex)
    (l : List Nat) (acc : ℝ) (hacc : 0 ≤ acc) :
    0 ≤ l.foldl (fun a vid => a + cornerDisplacement vertices vid) acc := by
  induction l generalizing acc with
  | nil => exact hacc
  | cons v vs ih =>
    exact ih _ (add_nonneg hacc (Real.sqrt_nonneg _))

/-- When every summand vanishes the accumulated total is the start
value. -/
theorem foldl_cornerDisplacement_eq_acc (vertices : List Vertex)
    (l : List Nat) (hz : ∀ v ∈ l, cornerDisplacement vertices v = 0) :
    ∀ acc : ℝ, l.foldl (fun a vid => a + cornerDisplacement vertices vid) acc = acc := by
  induction l with
  | nil => intro acc; rfl
  | cons v vs ih =>
    intro acc
    rw [List.foldl_cons, hz v (List.mem_cons_self v vs), add_zero]
    exact ih (fun w hw => hz w (List.mem_cons_of_mem v hw)) acc

/-- The average corner displacement is never negative. -/
theorem avgDisplacement_nonneg (cell : Cell) (vertices : List Vertex) :
    0 ≤ avgDisplacement cell vertices := by
  unfold avgDisplacement
  exact div_nonneg
    (foldl_cornerDisplacement_nonneg vertices cell.v_indices 0 le_rfl)
    (by norm_num)

/-- Four rest vertices give average displacement 0. -/
theorem avgDisplacement_c8Rest : avgDisplacement c8CellW c8VertsRest = 0 := by
  unfold avgDisplacement
  rw [foldl_cornerDisplacement_eq_acc]
  · norm_num
  · intro v hv
    have : v = 0 ∨ v = 1 ∨ v = 2 ∨ v = 3 := by
      simpa [c8CellW] using hv
    rcases this with rfl | rfl | rfl | rfl <;>
      simp [cornerDisplacement, c8VertsRest]

/-- Four vertices each displaced by (0, 1) give average displacement 1. -/
theorem avgDisplacement_c8Moved : avgDisplacement c8CellW c8VertsMoved = 1 := by
  have hone : ∀ v ∈ c8CellW.v_indices,
      cornerDisplacement c8VertsMoved v = 1 := by
    intro v hv
    have : v = 0 ∨ v = 1 ∨ v = 2 ∨ v = 3 := by
      simpa [c8CellW] using hv
    rcases this with rfl | rfl | rfl | rfl <;>
      norm_num [cornerDisplacement, c8VertsMoved, Real.sqrt_one]
  unfold avgDisplacement
  show (List.foldl _ 0 c8CellW.v_indices) / 4 = 1
  rw [show c8CellW.v_indices = [0, 1, 2, 3] from rfl]
  simp only [List.foldl_cons, List.foldl_nil]
  rw [hone 0 (by simp [c8CellW]), hone 1 (by simp [c8CellW]),
    hone 2 (by simp [c8CellW]), hone 3 (by simp [c8CellW])]
  norm_num

/-- C8 counterexample: at the concrete scale −1, average displacement
0 maps to intensity 0 but average displacement 1 maps to intensity
−200, so the color map is not monotonically non-decreasing in the
average displacement for every fixed scale, the intensity is not
clamped into [0, 255], and the emitted string is not a grayscale hex
color at all. -/
theorem C8_counterexample_negative_scale :
    avgDisplacement c8CellW c8VertsRest ≤ avgDisplacement c8CellW c8VertsMoved ∧
    displacementIntensity (avgDisplacement c8CellW c8VertsMoved) (-1) <
      displacementIntensity (avgDisplacement c8CellW c8VertsRest) (-1) ∧
    displacementIntensity (avgDisplacement c8CellW c8VertsMoved) (-1) < 0 ∧
    getDisplacementColor c8CellW c8VertsMoved (-1) = "#-c8-c8-c8" := by
  have hrest : avgDisplacement c8CellW c8VertsRest = 0 := avgDisplacement_c8Rest
  have hmoved : avgDisplacement c8CellW c8VertsMoved = 1 := avgDisplacement_c8Moved
  have hIr : displacementIntensity 0 (-1) = 0 := by
    unfold displacementIntensity
    norm_num
  have hIm : displacementIntensity 1 (-1) = -200 := by
    unfold displacementIntensity
    norm_num
  refine ⟨by rw [hrest, hmoved]; norm_num, ?_, ?_, ?_⟩
  · rw [hrest, hmoved, hIr, hIm]
    norm_num
  · rw [hmoved, hIm]
    norm_num
  · unfold getDisplacementColor
    rw [hmoved, hIm]
    with_unfolding_all rfl

/-- C8 as amended: for every fixed non-negative scale the displacement
color's intensity is monotonically non-decreasing in the average corner
displacement, lies in [0, 255] (the floor of avg·scale·200 clamped from
above by 255), the emitted color is a neutral grayscale string with its
hex byte repeated for R, G and B, and a cell whose four corners all sit
at their rest positions renders exactly #000000. -/
theorem C8_displacement_color_nonneg_scale (c1 : Cell) (vs1 : List Vertex)
    (c2 : Cell) (vs2 : List Vertex) (scale : ℝ) (hs : 0 ≤ scale) :
    (avgDisplacement c1 vs1 ≤ avgDisplacement c2 vs2 →
      displacementIntensity (avgDisplacement c1 vs1) scale ≤
        displacementIntensity (avgDisplacement c2 vs2) scale) ∧
    (0 ≤ displacementIntensity (avgDisplacement c1 vs1) scale ∧
      displacementIntensity (avgDisplacement c1 vs1) scale ≤ 255) ∧
    (∃ h : String, getDisplacementColor c1 vs1 scale = "#" ++ h ++ h ++ h) ∧
    ((∀ vid ∈ c1.v_indices,
        (vs1.getD vid default).x = (vs1.getD vid default).originalX ∧
        (vs1.getD vid default).y = (vs1.getD vid default).originalY) →
      getDisplacementColor c1 vs1 scale = "#000000") := by
  refine ⟨?_, ⟨?_, min_le_left _ _⟩, ⟨_, rfl⟩, ?_⟩
  · intro hle
    unfold displacementIntensity
    exact min_le_min le_rfl (Int.floor_mono
      (mul_le_mul_of_nonneg_right
        (mul_le_mul_of_nonneg_right hle hs) (by norm_num)))
  · unfold displacementIntensity
    refine le_min (by norm_num) (Int.floor_nonneg.mpr ?_)
    exact mul_nonneg (mul_nonneg (avgDisplacement_nonneg c1 vs1) hs) (by norm_num)
  · intro hrest
    have havg : avgDisplacement c1 vs1 = 0 := by
      unfold avgDisplacement
      rw [foldl_cornerDisplacement_eq_acc]
      · norm_num
      · intro v hv
        obtain ⟨hx, hy⟩ := hrest v hv
        simp only [cornerDisplacement]
        rw [hx, hy]
        simp
    have hint : displacementIntensity 0 scale = 0 := by
      unfold displacementIntensity
      rw [zero_mul, zero_mul, Int.floor_zero]
      with_unfolding_all rfl
    unfold getDisplacementColor
    rw [havg, hint]
    with_unfolding_all rfl

/-- Witness for C8 as amended: at scale 1 the all-at-rest square
renders #000000 and its intensity is within the clamp range. -/
theorem C8_witness :
    getDisplacementColor c8CellW c8VertsRest 1 = "#000000" ∧
    0 ≤ displacementIntensity (avgDisplacement c8CellW c8VertsRest) 1 := by
  have h := C8_displacement_color_nonneg_scale c8CellW c8VertsRest
    c8CellW c8VertsMoved 1 (by norm_num)
  refine ⟨h.2.2.2 ?_, h.2.1.1⟩
  intro vid hv
  have : vid = 0 ∨ vid = 1 ∨ vid = 2 ∨ vid = 3 := by
    simpa [c8CellW] using hv
  rcases this with rfl | rfl | rfl | rfl <;>
    exact ⟨by with_unfolding_all rfl, by with_unfolding_all rfl⟩

end Mesh
